import Mathlib

/-!
Verification development for the dataset-comparison pipeline
(embedding generation, cosine-similarity matching, diff summarization,
report assembly).

The TypeScript source is shallowly embedded:
* JS numbers that may be NaN are modelled by `JsNum` (a rational value or
  NaN); the JS `>` comparison, which is false whenever either side is NaN,
  is `jsGt`.
* The remote embedding service is an oracle `embed : String → Except String
  (List ℚ)` (an `Except.error` models a thrown/rejected call); the remote
  completion service is an oracle `complete : String → CompletionOutcome`.
* `async`/`await` with `Promise.all` over a batch is modelled by sequencing
  in the `Except` monad (`mapME`); results are collected positionally, as
  `Promise.all` does.
* The `for` loop stepping by `BATCH_SIZE` is modelled by the fuelled
  recursion `batchedExceptGo` / `batchedGo`, which also counts the
  inter-batch pauses (`setTimeout` waits) the loop performs.
-/

/-- `types.ts` `DatasetEntry`: id, name, title, summary, skills. -/
structure DatasetEntry where
  id : Int
  name : String
  title : String
  summary : String
  skills : List String
deriving DecidableEq, Repr

/-- `types.ts` `DatasetEntryWithEmbedding extends DatasetEntry`: the spread
`{ ...entry, embedding }` is modelled as an entry paired with its embedding
vector. -/
structure DatasetEntryWithEmbedding where
  entry : DatasetEntry
  embedding : List ℚ
deriving DecidableEq, Repr

/-- A JS number as it matters to this program: either an ordinary (finite)
number, modelled by a rational, or NaN. -/
inductive JsNum where
  | nan : JsNum
  | val : ℚ → JsNum
deriving DecidableEq, Repr

/-- The JS `>` comparison: false whenever either operand is NaN. -/
def jsGt : JsNum → JsNum → Bool
  | JsNum.val x, JsNum.val y => decide (y < x)
  | _, _ => false

/-- `types.ts` `MatchResult`. -/
structure MatchResult where
  «match» : DatasetEntryWithEmbedding
  score : JsNum
deriving DecidableEq, Repr

/-- The anonymous comparison triple built in `compareDatasets` and consumed
by `generateDiffSummariesWithBatching`. -/
structure Comparison where
  entryA : DatasetEntry
  «match» : DatasetEntry
  similarityScore : JsNum
deriving DecidableEq, Repr

/-- `types.ts` `ComparisonResult`. -/
structure ComparisonResult where
  entryA : DatasetEntry
  «match» : DatasetEntry
  similarityScore : JsNum
  diffSummary : Option String
deriving DecidableEq, Repr

/-- `types.ts` `ComparisonReport`. -/
structure ComparisonReport where
  comparisonDate : String
  totalComparisons : Nat
  results : List ComparisonResult
deriving DecidableEq, Repr

instance {ε α : Type} [DecidableEq ε] [DecidableEq α] : DecidableEq (Except ε α)
  | .error e1, .error e2 =>
      if h : e1 = e2 then isTrue (by rw [h])
      else isFalse (by intro c; cases c; exact h rfl)
  | .error _, .ok _ => isFalse (by intro c; cases c)
  | .ok _, .error _ => isFalse (by intro c; cases c)
  | .ok a1, .ok a2 =>
      if h : a1 = a2 then isTrue (by rw [h])
      else isFalse (by intro c; cases c; exact h rfl)

/-- The `BATCH_SIZE` constant. -/
def BATCH_SIZE : Nat := 10

/-- Dot product of two vectors, in the zip-wise sense (extra coordinates of
the longer vector are ignored). -/
def dotProduct : List ℚ → List ℚ → ℚ
  | x :: xs, y :: ys => x * y + dotProduct xs ys
  | _, _ => 0

/-- Exact rational square root helper: correct on perfect squares (numerator
and denominator), which is all the model relies on. -/
def ratSqrt (q : ℚ) : ℚ :=
  (Nat.sqrt q.num.toNat : ℚ) / (Nat.sqrt q.den : ℚ)

/-- Modelled from the spec: the Similarity Scorer (the imported
`cos-similarity` library, which is not part of this repository's sources)
computes the dot product divided by the product of magnitudes; when either
vector has zero magnitude the division is 0/0, a non-finite (NaN) result.
The rational model is exact whenever the product of squared magnitudes is a
perfect square (as in every concrete input used below); floating-point
rounding is not modelled. -/
def cosineSimilarity (a b : List ℚ) : JsNum :=
  let m := dotProduct a a * dotProduct b b
  if m = 0 then JsNum.nan
  else JsNum.val (dotProduct a b / ratSqrt m)

/-- `createTextRepresentation` from the source. -/
def createTextRepresentation (entry : DatasetEntry) : String :=
  "Name: " ++ entry.name ++ "\nTitle: " ++ entry.title ++ "\nSummary: "
    ++ entry.summary ++ "\nSkills: " ++ String.intercalate ", " entry.skills

/-- `generateEmbedding`: one call to the remote embedding service.  The
oracle covers the whole request-and-extract (`response.data[0].embedding`);
a thrown/rejected call is `Except.error`. -/
def generateEmbedding (embed : String → Except String (List ℚ))
    (text : String) : Except String (List ℚ) :=
  embed text

/-- `Promise.all(batch.map f)` together with the sequential `await`s of the
surrounding loop: results are positional; the first failing item rejects the
whole thing. -/
def mapME (f : α → Except String β) : List α → Except String (List β)
  | [] => Except.ok []
  | a :: as => do
      let b ← f a
      let bs ← mapME f as
      Except.ok (b :: bs)

/-- The batching loop `for (let i = 0; i < entries.length; i += BATCH_SIZE)`
for a fallible per-item transform, with fuel (the loop diverges in JS when
`B = 0`; with `B ≥ 1`, fuel `l.length` always suffices).  Returns the
collected results together with the number of inter-batch pauses performed
(the loop pauses after a batch exactly when `i + BATCH_SIZE <
entries.length`, i.e. when items remain). -/
def batchedExceptGo (f : α → Except String β) (B : Nat) :
    Nat → List α → Except String (List β × Nat)
  | _, [] => Except.ok ([], 0)
  | 0, _ :: _ => Except.ok ([], 0)
  | Nat.succ fuel, a :: as => do
      let l := a :: as
      let batchResults ← mapME f (l.take B)
      let rest := l.drop B
      let p ← batchedExceptGo f B fuel rest
      Except.ok (batchResults ++ p.1, if rest.isEmpty then p.2 else p.2 + 1)

/-- The same batching loop for a total per-item transform. -/
def batchedGo (f : α → β) (B : Nat) : Nat → List α → List β × Nat
  | _, [] => ([], 0)
  | 0, _ :: _ => ([], 0)
  | Nat.succ fuel, a :: as =>
      let l := a :: as
      let batchResults := (l.take B).map f
      let rest := l.drop B
      let p := batchedGo f B fuel rest
      (batchResults ++ p.1, if rest.isEmpty then p.2 else p.2 + 1)

/-- The per-entry work item of `generateEmbeddingsWithBatching`: build the
text representation, call the service, attach the embedding. -/
def embedEntry (embed : String → Except String (List ℚ))
    (entry : DatasetEntry) : Except String DatasetEntryWithEmbedding := do
  let emb ← generateEmbedding embed (createTextRepresentation entry)
  Except.ok ⟨entry, emb⟩

/-- `generateEmbeddingsWithBatching`, parameterized by the batch size (the
source fixes it to `BATCH_SIZE`).  Also returns the number of inter-batch
pauses. -/
def generateEmbeddingsWithBatching (embed : String → Except String (List ℚ))
    (B : Nat) (entries : List DatasetEntry) :
    Except String (List DatasetEntryWithEmbedding × Nat) :=
  batchedExceptGo (embedEntry embed) B entries.length entries

/-- The loop body of `findBestMatch`: scan the targets, keeping the best
score seen so far (`acc.2`, initially `-1`) and the entry that attained it
(`acc.1`, initially `null`). -/
def scanBest (sim : List ℚ → List ℚ → JsNum) (aEmb : List ℚ)
    (acc : Option DatasetEntryWithEmbedding × JsNum) :
    List DatasetEntryWithEmbedding → Option DatasetEntryWithEmbedding × JsNum
  | [] => acc
  | entryB :: rest =>
      let similarity := sim aEmb entryB.embedding
      if jsGt similarity acc.2 then scanBest sim aEmb (some entryB, similarity) rest
      else scanBest sim aEmb acc rest

/-- `findBestMatch`, parameterized by the similarity scorer `sim` (the
source imports `cosineSimilarity`).  Throwing the no-match JS `Error`
is `Except.error "No match found"`. -/
def findBestMatch (sim : List ℚ → List ℚ → JsNum)
    (entryA : DatasetEntryWithEmbedding)
    (datasetBWithEmbeddings : List DatasetEntryWithEmbedding) :
    Except String MatchResult :=
  match scanBest sim entryA.embedding (none, JsNum.val (-1)) datasetBWithEmbeddings with
  | (none, _) => Except.error "No match found"
  | (some m, s) => Except.ok ⟨m, s⟩

/-- Outcome of one remote completion call: a thrown/rejected call (also
covering a response without a `choices[0]`, which throws on field access
inside the `try`), or a response whose message content is `none` when
absent. -/
inductive CompletionOutcome where
  | failure : CompletionOutcome
  | success (content : Option String) : CompletionOutcome
deriving DecidableEq, Repr

/-- The prompt template literal built by `generateDiffSummary`. -/
def diffPrompt (entryA entryB : DatasetEntry) : String :=
  "Compare these two user profiles and provide a brief summary of the differences:\n\n"
    ++ "Profile A:\nName: " ++ entryA.name ++ "\nTitle: " ++ entryA.title
    ++ "\nSummary: " ++ entryA.summary ++ "\nSkills: "
    ++ String.intercalate ", " entryA.skills
    ++ "\n\nProfile B:\nName: " ++ entryB.name ++ "\nTitle: " ++ entryB.title
    ++ "\nSummary: " ++ entryB.summary ++ "\nSkills: "
    ++ String.intercalate ", " entryB.skills
    ++ "\n\nProvide a concise summary of the key differences (e.g., \"Skills updated, title changed from \x27Dev\x27 to \x27Sr. Dev\x27\"). Focus on meaningful changes."

/-- `generateDiffSummary`: one completion call inside `try/catch`.  Returns
the summary — `response.choices[0].message.content?.trim() ?? null` — paired
with the number of remote completion calls performed (always 1: the request
is sent before any branching on its outcome).  A failure is caught and
substituted with the fixed placeholder text. -/
def generateDiffSummary (complete : String → CompletionOutcome)
    (entryA entryB : DatasetEntry) : Option String × Nat :=
  match complete (diffPrompt entryA entryB) with
  | CompletionOutcome.failure => (some "Error generating diff summary", 1)
  | CompletionOutcome.success none => (none, 1)
  | CompletionOutcome.success (some c) => (some c.trim, 1)

/-- The per-comparison work item of `generateDiffSummariesWithBatching`: the
ternary on `comparison.similarityScore === 1` decides whether
`generateDiffSummary` (and with it the remote completion call) runs at all.
Returns the `ComparisonResult` together with the number of completion calls
made for this item. -/
def diffItem (complete : String → CompletionOutcome)
    (comparison : Comparison) : ComparisonResult × Nat :=
  if comparison.similarityScore = JsNum.val 1 then
    (⟨comparison.entryA, comparison.«match», comparison.similarityScore,
      some "No differences"⟩, 0)
  else
    let r := generateDiffSummary complete comparison.entryA comparison.«match»
    (⟨comparison.entryA, comparison.«match», comparison.similarityScore, r.1⟩, r.2)

/-- `generateDiffSummariesWithBatching`, parameterized by the batch size
(the source fixes it to `BATCH_SIZE`).  Returns the `ComparisonResult`s and
the number of inter-batch pauses. -/
def generateDiffSummariesWithBatching (complete : String → CompletionOutcome)
    (B : Nat) (comparisons : List Comparison) : List ComparisonResult × Nat :=
  let p := batchedGo (diffItem complete) B comparisons.length comparisons
  (p.1.map Prod.fst, p.2)

/-- `compareDatasets`: the pipeline.  Dataset loading and report persistence
are external collaborators, so the datasets come in as arguments and the
report goes out as the result; `now` is the generation timestamp
(`new Date().toISOString()`); `sim` is the imported similarity scorer. -/
def compareDatasets (embed : String → Except String (List ℚ))
    (sim : List ℚ → List ℚ → JsNum) (complete : String → CompletionOutcome)
    (now : String) (datasetA datasetB : List DatasetEntry) :
    Except String ComparisonReport := do
  let resA ← generateEmbeddingsWithBatching embed BATCH_SIZE datasetA
  let resB ← generateEmbeddingsWithBatching embed BATCH_SIZE datasetB
  let comparisons ← mapME (fun entryA => do
      let r ← findBestMatch sim entryA resB.1
      Except.ok (⟨entryA.entry, r.«match».entry, r.score⟩ : Comparison)) resA.1
  let finalResults := (generateDiffSummariesWithBatching complete BATCH_SIZE comparisons).1
  Except.ok ⟨now, finalResults.length, finalResults⟩

/-- `ceil(N/B)` over the naturals. -/
def ceilDiv (n B : Nat) : Nat := (n + B - 1) / B

lemma bindE_eq_ok {α β : Type} {x : Except String α} {f : α → Except String β}
    {b : β} : x.bind f = Except.ok b ↔ ∃ a, x = Except.ok a ∧ f a = Except.ok b := by
  cases x <;> simp [Except.bind]

lemma bind_do_eq_ok {α β : Type} {x : Except String α} {f : α → Except String β}
    {b : β} : (do let a ← x; f a) = Except.ok b ↔
      ∃ a, x = Except.ok a ∧ f a = Except.ok b := bindE_eq_ok

lemma mapME_nil {α β : Type} (f : α → Except String β) : mapME f [] = Except.ok [] := rfl

lemma mapME_cons {α β : Type} (f : α → Except String β) (a : α) (as : List α) :
    mapME f (a :: as) = (f a).bind fun b => (mapME f as).bind fun bs =>
      Except.ok (b :: bs) := rfl

lemma mapME_ok_length {α β : Type} (f : α → Except String β) :
    ∀ {l : List α} {r : List β}, mapME f l = Except.ok r → r.length = l.length := by
  intro l
  induction l with
  | nil => intro r h; rw [mapME_nil] at h; cases h; rfl
  | cons a as ih =>
      intro r h
      rw [mapME_cons, bindE_eq_ok] at h
      obtain ⟨b, _, h⟩ := h
      rw [bindE_eq_ok] at h
      obtain ⟨bs, hbs, h⟩ := h
      cases h
      simp [ih hbs]

lemma mapME_ok_get {α β : Type} (f : α → Except String β) :
    ∀ {l : List α} {r : List β}, mapME f l = Except.ok r →
      ∀ (i : Nat) (h1 : i < l.length) (h2 : i < r.length),
        f (l.get ⟨i, h1⟩) = Except.ok (r.get ⟨i, h2⟩) := by
  intro l
  induction l with
  | nil => intro r _ i h1; exact absurd h1 (by simp)
  | cons a as ih =>
      intro r h i h1 h2
      rw [mapME_cons, bindE_eq_ok] at h
      obtain ⟨b, hb, h⟩ := h
      rw [bindE_eq_ok] at h
      obtain ⟨bs, hbs, h⟩ := h
      cases h
      match i with
      | 0 => exact hb
      | Nat.succ j => exact ih hbs j (Nat.lt_of_succ_lt_succ h1) (Nat.lt_of_succ_lt_succ h2)

lemma mapME_not_ok_of_mem {α β : Type} (f : α → Except String β) {l : List α}
    {a : α} (ha : a ∈ l) {msg : String} (hf : f a = Except.error msg) :
    ∀ r, mapME f l ≠ Except.ok r := by
  induction l with
  | nil => cases ha
  | cons x xs ih =>
      intro r h
      rw [mapME_cons, bindE_eq_ok] at h
      obtain ⟨b, hb, h⟩ := h
      rw [bindE_eq_ok] at h
      obtain ⟨bs, hbs, _⟩ := h
      rcases List.mem_cons.mp ha with rfl | ha2
      · rw [hf] at hb; cases hb
      · exact ih ha2 bs hbs

lemma mapME_append {α β : Type} (f : α → Except String β) (l1 l2 : List α) :
    mapME f (l1 ++ l2) = (mapME f l1).bind fun r1 =>
      (mapME f l2).bind fun r2 => Except.ok (r1 ++ r2) := by
  induction l1 with
  | nil => rw [List.nil_append, mapME_nil]; cases mapME f l2 <;> simp [Except.bind]
  | cons a as ih =>
      rw [List.cons_append, mapME_cons, mapME_cons, ih]
      cases f a <;> simp [Except.bind]
      cases mapME f as <;> simp [Except.bind]
      cases mapME f l2 <;> simp [Except.bind]

lemma ceilDiv_eq_one {n B : Nat} (hn : 0 < n) (h : n ≤ B) :
    ceilDiv n B = 1 := by
  unfold ceilDiv
  exact Nat.div_eq_of_lt_le (by omega) (by omega)

lemma ceilDiv_sub {n B : Nat} (hB : 0 < B) (h : B < n) :
    ceilDiv (n - B) B = ceilDiv n B - 1 := by
  unfold ceilDiv
  have he : n + B - 1 = (n - B + B - 1) + B := by omega
  rw [he, Nat.add_div_right _ hB, Nat.add_sub_cancel]

lemma ceilDiv_pos {n B : Nat} (hB : 0 < B) (hn : 0 < n) : 0 < ceilDiv n B := by
  unfold ceilDiv
  exact (Nat.one_le_div_iff hB).mpr (by omega)

lemma ceilDiv_zero_eq (B : Nat) (hB : 0 < B) : ceilDiv 0 B = 0 := by
  unfold ceilDiv
  exact Nat.div_eq_of_lt (by omega)

lemma pause_val {B n : Nat} (hB : 0 < B) (hn : 0 < n) (h : n ≤ B) :
    ceilDiv (n - B) B - 1 = ceilDiv n B - 1 := by
  have h0 : n - B = 0 := by omega
  rw [h0, ceilDiv_zero_eq B hB, ceilDiv_eq_one hn h]

lemma pause_val2 {B n : Nat} (hB : 0 < B) (h : B < n) :
    ceilDiv (n - B) B - 1 + 1 = ceilDiv n B - 1 := by
  rw [Nat.sub_add_cancel (ceilDiv_pos hB (by omega)), ceilDiv_sub hB h]

lemma batchedGo_cons {α β : Type} (f : α → β) (B fuel : Nat) (a : α) (as : List α) :
    batchedGo f B (fuel + 1) (a :: as) =
      (((a :: as).take B).map f ++ (batchedGo f B fuel ((a :: as).drop B)).1,
        if ((a :: as).drop B).isEmpty then (batchedGo f B fuel ((a :: as).drop B)).2
        else (batchedGo f B fuel ((a :: as).drop B)).2 + 1) := rfl

lemma batchedExceptGo_cons {α β : Type} (f : α → Except String β) (B fuel : Nat)
    (a : α) (as : List α) :
    batchedExceptGo f B (fuel + 1) (a :: as) =
      (mapME f ((a :: as).take B)).bind fun batchResults =>
        (batchedExceptGo f B fuel ((a :: as).drop B)).bind fun p =>
          Except.ok (batchResults ++ p.1,
            if ((a :: as).drop B).isEmpty then p.2 else p.2 + 1) := rfl

lemma batchedGo_eq {α β : Type} (f : α → β) (B : Nat) (hB : 0 < B) :
    ∀ (fuel : Nat) (l : List α), l.length ≤ fuel →
      batchedGo f B fuel l = (l.map f, ceilDiv l.length B - 1) := by
  intro fuel
  induction fuel with
  | zero =>
      intro l hl
      have hnil : l = [] := List.eq_nil_of_length_eq_zero (Nat.le_zero.mp hl)
      subst hnil
      simp [batchedGo, ceilDiv_zero_eq B hB]
  | succ fuel ih =>
      intro l hl
      match l with
      | [] => simp [batchedGo, ceilDiv_zero_eq B hB]
      | a :: as =>
          have hlc : (a :: as).length = as.length + 1 := rfl
          have hrest : ((a :: as).drop B).length ≤ fuel := by
            rw [List.length_drop, hlc]
            rw [hlc] at hl
            omega
          rw [batchedGo_cons, ih _ hrest]
          have hfst : ((a :: as).take B).map f ++ ((a :: as).drop B).map f
              = (a :: as).map f := by
            rw [← List.map_append, List.take_append_drop]
          cases hD : ((a :: as).drop B).isEmpty with
          | true =>
              have hnil2 : (a :: as).drop B = [] := List.isEmpty_iff.mp hD
              have hle : as.length + 1 ≤ B := by
                have h3 := List.drop_eq_nil_iff.mp hnil2
                rw [hlc] at h3; exact h3
              simp only [Prod.mk.injEq]
              refine ⟨hfst, ?_⟩
              rw [if_pos trivial, List.length_drop, hlc]
              exact pause_val hB (by omega) hle
          | false =>
              have hnnil : (a :: as).drop B ≠ [] := by
                intro hc; rw [hc] at hD; exact absurd hD (by simp)
              have hgt : B < as.length + 1 := by
                by_contra hc
                exact hnnil (List.drop_eq_nil_iff.mpr (by rw [hlc]; omega))
              simp only [Prod.mk.injEq]
              refine ⟨hfst, ?_⟩
              rw [if_neg (by simp), List.length_drop, hlc]
              exact pause_val2 hB hgt

lemma batchedExceptGo_eq {α β : Type} (f : α → Except String β) (B : Nat) (hB : 0 < B) :
    ∀ (fuel : Nat) (l : List α), l.length ≤ fuel →
      batchedExceptGo f B fuel l =
        (mapME f l).bind (fun r => Except.ok (r, ceilDiv l.length B - 1)) := by
  intro fuel
  induction fuel with
  | zero =>
      intro l hl
      have hnil : l = [] := List.eq_nil_of_length_eq_zero (Nat.le_zero.mp hl)
      subst hnil
      simp [batchedExceptGo, mapME_nil, Except.bind, ceilDiv_zero_eq B hB]
  | succ fuel ih =>
      intro l hl
      match l with
      | [] => simp [batchedExceptGo, mapME_nil, Except.bind, ceilDiv_zero_eq B hB]
      | a :: as =>
          have hlc : (a :: as).length = as.length + 1 := rfl
          have hrest : ((a :: as).drop B).length ≤ fuel := by
            rw [List.length_drop, hlc]
            rw [hlc] at hl
            omega
          have hsplit : mapME f (a :: as) =
              (mapME f ((a :: as).take B)).bind fun r1 =>
                (mapME f ((a :: as).drop B)).bind fun r2 => Except.ok (r1 ++ r2) := by
            rw [← mapME_append, List.take_append_drop]
          rw [hsplit, batchedExceptGo_cons, ih _ hrest]
          cases h1 : mapME f ((a :: as).take B) with
          | error e => rfl
          | ok r1 =>
              cases h2 : mapME f ((a :: as).drop B) with
              | error e => rfl
              | ok r2 =>
                  show Except.ok _ = Except.ok _
                  refine congrArg Except.ok ?_
                  simp only [Prod.mk.injEq]
                  refine ⟨trivial, ?_⟩
                  cases hD : ((a :: as).drop B).isEmpty with
                  | true =>
                      have hnil2 : (a :: as).drop B = [] := List.isEmpty_iff.mp hD
                      have hle : as.length + 1 ≤ B := by
                        have h3 := List.drop_eq_nil_iff.mp hnil2
                        rw [hlc] at h3; exact h3
                      rw [if_pos rfl, List.length_drop, hlc]
                      exact pause_val hB (by omega) hle
                  | false =>
                      have hnnil : (a :: as).drop B ≠ [] := by
                        intro hc; rw [hc] at hD; exact absurd hD (by simp)
                      have hgt : B < as.length + 1 := by
                        by_contra hc
                        exact hnnil (List.drop_eq_nil_iff.mpr (by rw [hlc]; omega))
                      rw [if_neg (by simp), List.length_drop, hlc]
                      exact pause_val2 hB hgt

lemma jsGt_val_val (x y : ℚ) : jsGt (JsNum.val x) (JsNum.val y) = decide (y < x) := rfl

lemma jsGt_nan_left (t : JsNum) : jsGt JsNum.nan t = false := rfl

lemma jsGt_nan_right (s : JsNum) : jsGt s JsNum.nan = false := by cases s <;> rfl

lemma jsGt_true_elim {s t : JsNum} (h : jsGt s t = true) :
    ∃ x y : ℚ, s = JsNum.val x ∧ t = JsNum.val y ∧ y < x := by
  cases s with
  | nan => rw [jsGt_nan_left] at h; cases h
  | val x =>
      cases t with
      | nan => rw [jsGt_nan_right] at h; cases h
      | val y => exact ⟨x, y, rfl, rfl, of_decide_eq_true h⟩

lemma scanBest_nil (sim : List ℚ → List ℚ → JsNum) (aEmb : List ℚ)
    (acc : Option DatasetEntryWithEmbedding × JsNum) :
    scanBest sim aEmb acc [] = acc := rfl

lemma scanBest_cons (sim : List ℚ → List ℚ → JsNum) (aEmb : List ℚ)
    (bm : Option DatasetEntryWithEmbedding) (s : JsNum)
    (b : DatasetEntryWithEmbedding) (rest : List DatasetEntryWithEmbedding) :
    scanBest sim aEmb (bm, s) (b :: rest) =
      if jsGt (sim aEmb b.embedding) s then
        scanBest sim aEmb (some b, sim aEmb b.embedding) rest
      else scanBest sim aEmb (bm, s) rest := rfl

/-- Loop invariant of the best-match scan: the tracked score is an ordinary
number at least `-1`; it is exactly `-1` while no match is stored; and a
stored match's similarity equals the tracked score, which then exceeds
`-1`. -/
def BestInv (sim : List ℚ → List ℚ → JsNum) (aEmb : List ℚ)
    (acc : Option DatasetEntryWithEmbedding × JsNum) : Prop :=
  ∃ r : ℚ, acc.2 = JsNum.val r ∧ -1 ≤ r ∧
    (acc.1 = none → r = -1) ∧
    ∀ b, acc.1 = some b → sim aEmb b.embedding = JsNum.val r ∧ -1 < r

lemma scanBest_inv (sim : List ℚ → List ℚ → JsNum) (aEmb : List ℚ) :
    ∀ (l : List DatasetEntryWithEmbedding)
      (acc : Option DatasetEntryWithEmbedding × JsNum),
      BestInv sim aEmb acc → BestInv sim aEmb (scanBest sim aEmb acc l) := by
  intro l
  induction l with
  | nil => intro acc h; exact h
  | cons b rest ih =>
      intro acc h
      obtain ⟨r, hr2, hr1, hnone, hsome⟩ := h
      obtain ⟨bm, s⟩ := acc
      simp only at hr2
      subst hr2
      rw [scanBest_cons]
      by_cases hc : jsGt (sim aEmb b.embedding) (JsNum.val r) = true
      · rw [if_pos hc]
        apply ih
        obtain ⟨x, y, hs, ht, hyx⟩ := jsGt_true_elim hc
        have hyr : y = r := by cases ht; rfl
        subst hyr
        refine ⟨x, hs, by linarith, ?_, ?_⟩
        · intro hcon
          exact absurd hcon (by simp)
        · intro b2 hb2
          have hbb : b = b2 := by simpa using hb2
          subst hbb
          exact ⟨hs, by linarith⟩
      · rw [if_neg hc]
        exact ih (bm, JsNum.val r) ⟨r, rfl, hr1, hnone, hsome⟩

lemma scanBest_no_improve (sim : List ℚ → List ℚ → JsNum) (aEmb : List ℚ) :
    ∀ (l : List DatasetEntryWithEmbedding)
      (bm : Option DatasetEntryWithEmbedding) (s : JsNum),
      (∀ b ∈ l, jsGt (sim aEmb b.embedding) s = false) →
      scanBest sim aEmb (bm, s) l = (bm, s) := by
  intro l
  induction l with
  | nil => intro bm s _; rfl
  | cons b rest ih =>
      intro bm s h
      have hb := h b (List.mem_cons_self b rest)
      rw [scanBest_cons, if_neg (by rw [hb]; exact Bool.false_ne_true)]
      exact ih bm s (fun b2 hb2 => h b2 (List.mem_cons_of_mem _ hb2))

lemma scanBest_low (sim : List ℚ → List ℚ → JsNum) (aEmb : List ℚ) (x : ℚ) :
    ∀ (l : List DatasetEntryWithEmbedding)
      (bm : Option DatasetEntryWithEmbedding) (s0 : ℚ), s0 < x →
      (∀ b ∈ l, sim aEmb b.embedding = JsNum.nan ∨
        ∃ y : ℚ, sim aEmb b.embedding = JsNum.val y ∧ y < x) →
      ∃ bm1 s1, scanBest sim aEmb (bm, JsNum.val s0) l = (bm1, JsNum.val s1) ∧ s1 < x := by
  intro l
  induction l with
  | nil => intro bm s0 h0 _; exact ⟨bm, s0, rfl, h0⟩
  | cons b rest ih =>
      intro bm s0 h0 h
      rw [scanBest_cons]
      rcases h b (List.mem_cons_self b rest) with hnan | ⟨y, hy, hyx⟩
      · rw [if_neg (by rw [hnan, jsGt_nan_left]; exact Bool.false_ne_true)]
        exact ih bm s0 h0 (fun b2 hb2 => h b2 (List.mem_cons_of_mem _ hb2))
      · by_cases hc : jsGt (sim aEmb b.embedding) (JsNum.val s0) = true
        · rw [if_pos hc, hy]
          exact ih (some b) y hyx (fun b2 hb2 => h b2 (List.mem_cons_of_mem _ hb2))
        · rw [if_neg hc]
          exact ih bm s0 h0 (fun b2 hb2 => h b2 (List.mem_cons_of_mem _ hb2))

lemma scanBest_append (sim : List ℚ → List ℚ → JsNum) (aEmb : List ℚ) :
    ∀ (l1 l2 : List DatasetEntryWithEmbedding)
      (acc : Option DatasetEntryWithEmbedding × JsNum),
      scanBest sim aEmb acc (l1 ++ l2)
        = scanBest sim aEmb (scanBest sim aEmb acc l1) l2 := by
  intro l1
  induction l1 with
  | nil => intro l2 acc; rfl
  | cons b rest ih =>
      intro l2 acc
      obtain ⟨bm, s⟩ := acc
      rw [List.cons_append, scanBest_cons, scanBest_cons]
      by_cases hc : jsGt (sim aEmb b.embedding) s = true
      · rw [if_pos hc, if_pos hc, ih]
      · rw [if_neg hc, if_neg hc, ih]

/-- C6: for an empty target sequence, `findBestMatch` fails with the
no-match error rather than returning any degraded result. -/
theorem findBestMatch_empty (sim : List ℚ → List ℚ → JsNum)
    (a : DatasetEntryWithEmbedding) :
    findBestMatch sim a [] = Except.error "No match found" := rfl

/-- C1 (amended): for a target sequence of size exactly 1, `findBestMatch`
returns that single target element with its similarity as the score,
provided the similarity is an ordinary number strictly greater than the
`-1` initializer of the best-score tracker.  (As originally stated —
"regardless of the similarity score" — the claim fails: a score that is NaN
or exactly `≤ -1` never replaces the initializer and the call throws; see
the counterexample.) -/
theorem findBestMatch_singleton (sim : List ℚ → List ℚ → JsNum)
    (a b : DatasetEntryWithEmbedding)
    (h : jsGt (sim a.embedding b.embedding) (JsNum.val (-1)) = true) :
    findBestMatch sim a [b] = Except.ok ⟨b, sim a.embedding b.embedding⟩ := by
  unfold findBestMatch
  rw [scanBest_cons, if_pos h, scanBest_nil]

/-- C1 counterexample: embeddings `[1]` and `[-1]` have cosine similarity
exactly `-1` (no rounding is involved), which is not strictly greater than
the `-1` initializer, so the single target element is not returned — the
call fails with the no-match error instead. -/
theorem findBestMatch_singleton_cex :
    findBestMatch cosineSimilarity ⟨⟨1, "Ann", "Dev", "builds", ["Go"]⟩, [1]⟩
        [⟨⟨2, "Bob", "Dev", "builds", ["Go"]⟩, [-1]⟩]
      = Except.error "No match found" := by
  simp [findBestMatch, scanBest, cosineSimilarity, dotProduct, ratSqrt, jsGt]

theorem findBestMatch_singleton_witness :
    findBestMatch cosineSimilarity ⟨⟨1, "Ann", "Dev", "builds", ["Go"]⟩, [1]⟩
        [⟨⟨2, "Cyn", "Dev", "builds", ["Go"]⟩, [1]⟩]
      = Except.ok ⟨⟨⟨2, "Cyn", "Dev", "builds", ["Go"]⟩, [1]⟩,
          cosineSimilarity [1] [1]⟩ :=
  findBestMatch_singleton cosineSimilarity
    ⟨⟨1, "Ann", "Dev", "builds", ["Go"]⟩, [1]⟩
    ⟨⟨2, "Cyn", "Dev", "builds", ["Go"]⟩, [1]⟩
    (by simp [cosineSimilarity, dotProduct, ratSqrt, jsGt])

/-- C9: whenever `findBestMatch` returns normally, the returned score is an
ordinary number (not NaN) strictly greater than `-1`, and it equals the
similarity of the source entry's embedding and the returned match's
embedding. -/
theorem findBestMatch_score_sound (sim : List ℚ → List ℚ → JsNum)
    (a : DatasetEntryWithEmbedding) (dsB : List DatasetEntryWithEmbedding)
    (m : DatasetEntryWithEmbedding) (s : JsNum)
    (h : findBestMatch sim a dsB = Except.ok ⟨m, s⟩) :
    ∃ x : ℚ, s = JsNum.val x ∧ -1 < x ∧ sim a.embedding m.embedding = s := by
  unfold findBestMatch at h
  have hinv := scanBest_inv sim a.embedding dsB (none, JsNum.val (-1))
    ⟨-1, rfl, le_refl _, fun _ => rfl, by intro b hb; cases hb⟩
  cases hres : scanBest sim a.embedding (none, JsNum.val (-1)) dsB with
  | mk bm s2 =>
      rw [hres] at h hinv
      cases bm with
      | none => simp at h
      | some m2 =>
          simp only [Except.ok.injEq, MatchResult.mk.injEq] at h
          obtain ⟨hm, hs⟩ := h
          subst hm
          subst hs
          obtain ⟨r, hr2, _, _, hsome⟩ := hinv
          simp only at hr2
          obtain ⟨hsim, hrgt⟩ := hsome m2 rfl
          exact ⟨r, hr2, hrgt, by rw [hsim, hr2]⟩

theorem findBestMatch_score_sound_witness :
    ∃ x : ℚ, JsNum.val 1 = JsNum.val x ∧ -1 < x ∧
      cosineSimilarity [1] [1] = JsNum.val 1 :=
  findBestMatch_score_sound cosineSimilarity
    ⟨⟨1, "Ann", "Dev", "builds", ["Go"]⟩, [1]⟩
    [⟨⟨2, "Cyn", "Dev", "builds", ["Go"]⟩, [1]⟩]
    ⟨⟨2, "Cyn", "Dev", "builds", ["Go"]⟩, [1]⟩ (JsNum.val 1)
    (by simp [findBestMatch, scanBest, cosineSimilarity, dotProduct, ratSqrt, jsGt])

/-- C7 (amended): among the targets of a non-empty target sequence, if
position `i` attains similarity `x` — an ordinary number strictly greater
than the `-1` initializer — no target strictly beats `x` under the JS `>`
comparison, and no target before position `i` attains `x`, then
`findBestMatch` returns the target at position `i` with score `x`
(first-encountered-wins).  (As originally stated the claim fails when the
maximal similarity is `-1` or below, or NaN: then nothing ever replaces the
initializer and the call throws; see the counterexample.) -/
theorem findBestMatch_first_wins (sim : List ℚ → List ℚ → JsNum)
    (a : DatasetEntryWithEmbedding) (dsB : List DatasetEntryWithEmbedding)
    (i : Nat) (hi : i < dsB.length) (x : ℚ)
    (hx : sim a.embedding (dsB.get ⟨i, hi⟩).embedding = JsNum.val x)
    (hgt : -1 < x)
    (hmax : ∀ b ∈ dsB, jsGt (sim a.embedding b.embedding) (JsNum.val x) = false)
    (hfirst : ∀ b ∈ dsB.take i, sim a.embedding b.embedding ≠ JsNum.val x) :
    findBestMatch sim a dsB = Except.ok ⟨dsB.get ⟨i, hi⟩, JsNum.val x⟩ := by
  have hdecomp : dsB.take i ++ dsB.get ⟨i, hi⟩ :: dsB.drop (i + 1) = dsB := by
    rw [List.get_eq_getElem, ← List.drop_eq_getElem_cons hi]
    exact List.take_append_drop i dsB
  have hpref : ∀ b ∈ dsB.take i, sim a.embedding b.embedding = JsNum.nan ∨
      ∃ y : ℚ, sim a.embedding b.embedding = JsNum.val y ∧ y < x := by
    intro b hb
    cases hsb : sim a.embedding b.embedding with
    | nan => exact Or.inl rfl
    | val y =>
        refine Or.inr ⟨y, rfl, ?_⟩
        have h1 := hmax b (List.take_subset i dsB hb)
        rw [hsb, jsGt_val_val] at h1
        have h2 : ¬ (x < y) := of_decide_eq_false h1
        have h3 : sim a.embedding b.embedding ≠ JsNum.val x := hfirst b hb
        rw [hsb] at h3
        have h4 : y ≠ x := fun hyx => h3 (by rw [hyx])
        exact lt_of_le_of_ne (not_lt.mp h2) h4
  obtain ⟨bm1, s1, hpre, hs1x⟩ :=
    scanBest_low sim a.embedding x (dsB.take i) none (-1) hgt hpref
  unfold findBestMatch
  conv_lhs => rw [← hdecomp]
  rw [scanBest_append, hpre, scanBest_cons, hx, if_pos ?hcond]
  case hcond => rw [jsGt_val_val]; exact decide_eq_true hs1x
  rw [scanBest_no_improve sim a.embedding (dsB.drop (i + 1)) _ _ ?hsuf]
  case hsuf =>
    intro b hb
    exact hmax b (List.drop_subset (i + 1) dsB hb)

/-- C7 counterexample: both targets attain the maximal similarity (exactly
`-1`, via embeddings `[1]` vs `[-1]`), yet `findBestMatch` does not return
the first of them — it fails with the no-match error, because `-1` never
strictly exceeds the `-1` initializer. -/
theorem findBestMatch_first_wins_cex :
    findBestMatch cosineSimilarity ⟨⟨1, "Ann", "Dev", "builds", ["Go"]⟩, [1]⟩
        [⟨⟨2, "Bob", "Dev", "builds", ["Go"]⟩, [-1]⟩,
         ⟨⟨3, "Cai", "Dev", "builds", ["Go"]⟩, [-1]⟩]
      = Except.error "No match found" := by
  simp [findBestMatch, scanBest, cosineSimilarity, dotProduct, ratSqrt, jsGt]

theorem findBestMatch_first_wins_witness :
    findBestMatch cosineSimilarity ⟨⟨1, "Ann", "Dev", "builds", ["Go"]⟩, [1]⟩
        [⟨⟨2, "Bob", "Dev", "builds", ["Go"]⟩, [1]⟩,
         ⟨⟨3, "Cai", "Dev", "builds", ["Go"]⟩, [1]⟩]
      = Except.ok ⟨⟨⟨2, "Bob", "Dev", "builds", ["Go"]⟩, [1]⟩, JsNum.val 1⟩ :=
  findBestMatch_first_wins cosineSimilarity
    ⟨⟨1, "Ann", "Dev", "builds", ["Go"]⟩, [1]⟩
    [⟨⟨2, "Bob", "Dev", "builds", ["Go"]⟩, [1]⟩,
     ⟨⟨3, "Cai", "Dev", "builds", ["Go"]⟩, [1]⟩]
    0 (by decide) 1
    (by simp [cosineSimilarity, dotProduct, ratSqrt])
    (by decide)
    (by
      intro b hb
      rcases List.mem_cons.mp hb with rfl | hb2
      · simp [cosineSimilarity, dotProduct, ratSqrt, jsGt]
      · rcases List.mem_cons.mp hb2 with rfl | hb3
        · simp [cosineSimilarity, dotProduct, ratSqrt, jsGt]
        · cases hb3)
    (by simp)

lemma exceptBind_ok {α β : Type} (a : α) (f : α → Except String β) :
    ((Except.ok a : Except String α) >>= f) = f a := rfl

lemma exceptBind_err {α β : Type} (e : String) (f : α → Except String β) :
    ((Except.error e : Except String α) >>= f) = Except.error e := rfl

lemma bindM_eq_ok {α β : Type} {x : Except String α} {f : α → Except String β}
    {b : β} : (x >>= f) = Except.ok b ↔
      ∃ a, x = Except.ok a ∧ f a = Except.ok b := bindE_eq_ok

/-- Characterization of a successful run of the embedding stage: the results
are the sequenced per-entry results, and the pause count is `⌈N/B⌉ - 1`. -/
lemma genEmb_ok {embed : String → Except String (List ℚ)} {B : Nat}
    {entries : List DatasetEntry} {l : List DatasetEntryWithEmbedding} {p : Nat}
    (hB : 0 < B)
    (h : generateEmbeddingsWithBatching embed B entries = Except.ok (l, p)) :
    mapME (embedEntry embed) entries = Except.ok l ∧
      p = ceilDiv entries.length B - 1 := by
  unfold generateEmbeddingsWithBatching at h
  rw [batchedExceptGo_eq (embedEntry embed) B hB entries.length entries (le_refl _),
    bindE_eq_ok] at h
  obtain ⟨r, hr, hok⟩ := h
  simp only [Except.ok.injEq, Prod.mk.injEq] at hok
  obtain ⟨h1, h2⟩ := hok
  subst h1
  exact ⟨hr, h2.symm⟩

/-- Characterization of the diff-summarization stage: results are the mapped
per-item results, and the pause count is `⌈N/B⌉ - 1`. -/
lemma genDiff_eq (complete : String → CompletionOutcome) {B : Nat} (hB : 0 < B)
    (comparisons : List Comparison) :
    (generateDiffSummariesWithBatching complete B comparisons).1 =
      comparisons.map (fun c => (diffItem complete c).1) ∧
    (generateDiffSummariesWithBatching complete B comparisons).2 =
      ceilDiv comparisons.length B - 1 := by
  unfold generateDiffSummariesWithBatching
  rw [batchedGo_eq (diffItem complete) B hB comparisons.length comparisons (le_refl _)]
  dsimp only
  constructor
  · simp [List.map_map, Function.comp]
  · rfl

lemma embedEntry_ok_entry {embed : String → Except String (List ℚ)}
    {e : DatasetEntry} {we : DatasetEntryWithEmbedding}
    (h : embedEntry embed e = Except.ok we) : we.entry = e := by
  unfold embedEntry at h
  rw [bindM_eq_ok] at h
  obtain ⟨emb, _, hok⟩ := h
  cases hok
  rfl

lemma diffItem_fields (complete : String → CompletionOutcome) (c : Comparison) :
    (diffItem complete c).1.entryA = c.entryA ∧
    (diffItem complete c).1.«match» = c.«match» ∧
    (diffItem complete c).1.similarityScore = c.similarityScore := by
  unfold diffItem
  split <;> exact ⟨rfl, rfl, rfl⟩

/-- C2: for every batch size `B ≥ 1`, the two batched stages (embedding
generation and diff summarization) return exactly one result per input item,
`result[i]` corresponding to `input[i]` (results are collected positionally
by `Promise.all`, independent of completion timing), and perform exactly
`⌈N/B⌉ - 1` inter-batch pauses (natural-number subtraction: an empty input
performs no pauses). -/
theorem batching_positional (B : Nat) (hB : 0 < B) :
    (∀ (embed : String → Except String (List ℚ)) (entries : List DatasetEntry)
       (l : List DatasetEntryWithEmbedding) (p : Nat),
       generateEmbeddingsWithBatching embed B entries = Except.ok (l, p) →
       l.length = entries.length ∧
       (∀ (i : Nat) (h1 : i < entries.length) (h2 : i < l.length),
         embedEntry embed (entries.get ⟨i, h1⟩) = Except.ok (l.get ⟨i, h2⟩)) ∧
       p = ceilDiv entries.length B - 1) ∧
    (∀ (complete : String → CompletionOutcome) (comparisons : List Comparison),
       (generateDiffSummariesWithBatching complete B comparisons).1 =
         comparisons.map (fun c => (diffItem complete c).1) ∧
       (generateDiffSummariesWithBatching complete B comparisons).2 =
         ceilDiv comparisons.length B - 1) := by
  constructor
  · intro embed entries l p h
    obtain ⟨hmap, hp⟩ := genEmb_ok hB h
    exact ⟨mapME_ok_length _ hmap,
      fun i h1 h2 => mapME_ok_get _ hmap i h1 h2, hp⟩
  · intro complete comparisons
    exact genDiff_eq complete hB comparisons

theorem batching_positional_witness :
    ([(⟨⟨1, "Ann", "Dev", "builds", ["Go"]⟩, [1]⟩ : DatasetEntryWithEmbedding)].length
        = [(⟨1, "Ann", "Dev", "builds", ["Go"]⟩ : DatasetEntry)].length ∧
      0 = ceilDiv 1 10 - 1) ∧
    (generateDiffSummariesWithBatching (fun _ => CompletionOutcome.failure) 10
        [⟨⟨1, "Ann", "Dev", "builds", ["Go"]⟩, ⟨2, "Bob", "Dev", "builds", ["Go"]⟩,
          JsNum.val 0⟩]).2 = ceilDiv 1 10 - 1 := by
  have h1 := (batching_positional 10 (by decide)).1 (fun _ => Except.ok [1])
    [⟨1, "Ann", "Dev", "builds", ["Go"]⟩]
    [⟨⟨1, "Ann", "Dev", "builds", ["Go"]⟩, [1]⟩] 0 rfl
  have h2 := (batching_positional 10 (by decide)).2
    (fun _ => CompletionOutcome.failure)
    [⟨⟨1, "Ann", "Dev", "builds", ["Go"]⟩, ⟨2, "Bob", "Dev", "builds", ["Go"]⟩,
      JsNum.val 0⟩]
  exact ⟨⟨h1.1, h1.2.2⟩, h2.2⟩

/-- C3: for a comparison whose similarityScore is exactly 1, the diff stage
produces the fixed text "No differences" and performs zero remote completion
calls for that item, and the batched stage's result at that position carries
that fixed text. -/
theorem diff_skip_identical (complete : String → CompletionOutcome) (B : Nat)
    (hB : 0 < B) (comparisons : List Comparison) (i : Nat) (c : Comparison)
    (hc : comparisons[i]? = some c)
    (hid : c.similarityScore = JsNum.val 1) :
    diffItem complete c
      = (⟨c.entryA, c.«match», c.similarityScore, some "No differences"⟩, 0) ∧
    (generateDiffSummariesWithBatching complete B comparisons).1[i]?
      = some ⟨c.entryA, c.«match», c.similarityScore, some "No differences"⟩ := by
  have hitem : diffItem complete c
      = (⟨c.entryA, c.«match», c.similarityScore, some "No differences"⟩, 0) := by
    unfold diffItem
    rw [if_pos hid]
  refine ⟨hitem, ?_⟩
  rw [(genDiff_eq complete hB comparisons).1,
    List.getElem?_map (fun c => (diffItem complete c).1) comparisons i, hc]
  refine congrArg some ?_
  show (diffItem complete c).1 = _
  rw [hitem]

theorem diff_skip_identical_witness :
    diffItem (fun _ => CompletionOutcome.failure)
        ⟨⟨1, "Ann", "Dev", "builds", ["Go"]⟩, ⟨2, "Bob", "Dev", "builds", ["Go"]⟩,
          JsNum.val 1⟩
      = (⟨⟨1, "Ann", "Dev", "builds", ["Go"]⟩, ⟨2, "Bob", "Dev", "builds", ["Go"]⟩,
          JsNum.val 1, some "No differences"⟩, 0) ∧
    (generateDiffSummariesWithBatching (fun _ => CompletionOutcome.failure) 10
        [⟨⟨1, "Ann", "Dev", "builds", ["Go"]⟩, ⟨2, "Bob", "Dev", "builds", ["Go"]⟩,
          JsNum.val 1⟩]).1[0]?
      = some ⟨⟨1, "Ann", "Dev", "builds", ["Go"]⟩, ⟨2, "Bob", "Dev", "builds", ["Go"]⟩,
          JsNum.val 1, some "No differences"⟩ :=
  diff_skip_identical (fun _ => CompletionOutcome.failure) 10 (by decide)
    [⟨⟨1, "Ann", "Dev", "builds", ["Go"]⟩, ⟨2, "Bob", "Dev", "builds", ["Go"]⟩,
      JsNum.val 1⟩] 0
    ⟨⟨1, "Ann", "Dev", "builds", ["Go"]⟩, ⟨2, "Bob", "Dev", "builds", ["Go"]⟩,
      JsNum.val 1⟩ rfl rfl

lemma exceptBindE_ok {α β : Type} (a : α) (f : α → Except String β) :
    (Except.ok a : Except String α).bind f = f a := rfl

lemma exceptBindE_err {α β : Type} (e : String) (f : α → Except String β) :
    (Except.error e : Except String α).bind f = Except.error e := rfl

/-- `compareDatasets` written as an explicit `Except.bind` chain (the `do`
block, definitionally). -/
lemma compareDatasets_eq (embed : String → Except String (List ℚ))
    (sim : List ℚ → List ℚ → JsNum) (complete : String → CompletionOutcome)
    (now : String) (datasetA datasetB : List DatasetEntry) :
    compareDatasets embed sim complete now datasetA datasetB =
      (generateEmbeddingsWithBatching embed BATCH_SIZE datasetA).bind fun resA =>
        (generateEmbeddingsWithBatching embed BATCH_SIZE datasetB).bind fun resB =>
          (mapME (fun entryA => (findBestMatch sim entryA resB.1).bind fun r =>
              Except.ok (⟨entryA.entry, r.«match».entry, r.score⟩ : Comparison))
            resA.1).bind fun comparisons =>
            Except.ok ⟨now,
              (generateDiffSummariesWithBatching complete BATCH_SIZE comparisons).1.length,
              (generateDiffSummariesWithBatching complete BATCH_SIZE comparisons).1⟩ := rfl

lemma mapME_ok_getElem_some {α β : Type} {f : α → Except String β}
    {l : List α} {r : List β} (h : mapME f l = Except.ok r)
    {i : Nat} {a : α} (ha : l[i]? = some a) :
    ∃ b, r[i]? = some b ∧ f a = Except.ok b := by
  have hi : i < l.length := by
    by_contra hc
    rw [List.getElem?_eq_none (not_lt.mp hc)] at ha
    cases ha
  have hir : i < r.length := by rw [mapME_ok_length f h]; exact hi
  have hget := mapME_ok_get f h i hi hir
  have ha2 : l.get ⟨i, hi⟩ = a := by
    have h3 : l[i]? = some (l.get ⟨i, hi⟩) := List.getElem?_eq_getElem hi
    rw [h3] at ha
    exact Option.some.inj ha
  refine ⟨r.get ⟨i, hir⟩, ?_, ?_⟩
  · exact List.getElem?_eq_getElem hir
  · rw [← ha2]
    exact hget

/-- C4: a failure of the remote completion call for a single item is caught
and converted into the fixed substitute text "Error generating diff summary"
— with an always-failing completion service, every non-identical
comparison's diffSummary is that placeholder — and whether the pipeline
produces a report does not depend on the completion service at all, so the
run still completes. -/
theorem diff_degrade (complete : String → CompletionOutcome)
    (hfail : ∀ p, complete p = CompletionOutcome.failure) :
    (∀ (B : Nat), 0 < B → ∀ (comparisons : List Comparison) (i : Nat)
       (c : Comparison), comparisons[i]? = some c →
       c.similarityScore ≠ JsNum.val 1 →
       (generateDiffSummariesWithBatching complete B comparisons).1[i]? =
         some ⟨c.entryA, c.«match», c.similarityScore,
           some "Error generating diff summary"⟩) ∧
    (∀ (embed : String → Except String (List ℚ))
       (sim : List ℚ → List ℚ → JsNum) (complete2 : String → CompletionOutcome)
       (now : String) (dsA dsB : List DatasetEntry),
       (compareDatasets embed sim complete now dsA dsB).isOk =
         (compareDatasets embed sim complete2 now dsA dsB).isOk) := by
  constructor
  · intro B hB comparisons i c hc hne
    have hitem : diffItem complete c =
        (⟨c.entryA, c.«match», c.similarityScore,
          some "Error generating diff summary"⟩, 1) := by
      unfold diffItem
      rw [if_neg hne]
      unfold generateDiffSummary
      rw [hfail]
    rw [(genDiff_eq complete hB comparisons).1,
      List.getElem?_map (fun c => (diffItem complete c).1) comparisons i, hc]
    refine congrArg some ?_
    show (diffItem complete c).1 = _
    rw [hitem]
  · intro embed sim complete2 now dsA dsB
    rw [compareDatasets_eq, compareDatasets_eq]
    cases hA : generateEmbeddingsWithBatching embed BATCH_SIZE dsA with
    | error e => rfl
    | ok ra =>
        simp only [exceptBindE_ok]
        cases hB2 : generateEmbeddingsWithBatching embed BATCH_SIZE dsB with
        | error e => rfl
        | ok rb =>
            simp only [exceptBindE_ok]
            cases hC : mapME (fun entryA =>
                (findBestMatch sim entryA rb.1).bind fun r =>
                  Except.ok (⟨entryA.entry, r.«match».entry, r.score⟩ : Comparison))
                ra.1 with
            | error e => rfl
            | ok comps => rfl

theorem diff_degrade_witness :
    (generateDiffSummariesWithBatching (fun _ => CompletionOutcome.failure) 10
        [⟨⟨1, "Ann", "Dev", "builds", ["Go"]⟩, ⟨2, "Bob", "Dev", "builds", ["Go"]⟩,
          JsNum.val 0⟩]).1[0]?
      = some ⟨⟨1, "Ann", "Dev", "builds", ["Go"]⟩, ⟨2, "Bob", "Dev", "builds", ["Go"]⟩,
          JsNum.val 0, some "Error generating diff summary"⟩ :=
  (diff_degrade (fun _ => CompletionOutcome.failure) (fun _ => rfl)).1
    10 (by decide)
    [⟨⟨1, "Ann", "Dev", "builds", ["Go"]⟩, ⟨2, "Bob", "Dev", "builds", ["Go"]⟩,
      JsNum.val 0⟩] 0
    ⟨⟨1, "Ann", "Dev", "builds", ["Go"]⟩, ⟨2, "Bob", "Dev", "builds", ["Go"]⟩,
      JsNum.val 0⟩ rfl (by decide)

/-- C5: when the remote embedding call for some entry of the input throws,
the embedding stage does not catch it: `generateEmbeddingsWithBatching`
never returns a result (the error propagates out), and the whole
`compareDatasets` run — with the failing entry in either dataset — never
produces a report (fail-fast, no partial report). -/
theorem embedding_fail_fast (embed : String → Except String (List ℚ))
    (B : Nat) (hB : 0 < B) (entries : List DatasetEntry) (e : DatasetEntry)
    (he : e ∈ entries) (msg : String)
    (hf : embed (createTextRepresentation e) = Except.error msg) :
    (∀ r, generateEmbeddingsWithBatching embed B entries ≠ Except.ok r) ∧
    (∀ sim complete now dsB r2,
      compareDatasets embed sim complete now entries dsB ≠ Except.ok r2) ∧
    (∀ sim complete now dsA r3,
      compareDatasets embed sim complete now dsA entries ≠ Except.ok r3) := by
  have hfe : embedEntry embed e = Except.error msg := by
    unfold embedEntry generateEmbedding
    rw [hf]
    rfl
  have h1 : ∀ (B2 : Nat), 0 < B2 →
      ∀ r, generateEmbeddingsWithBatching embed B2 entries ≠ Except.ok r := by
    intro B2 hB2 r hok
    obtain ⟨rl, rp⟩ := r
    obtain ⟨hmap, _⟩ := genEmb_ok hB2 hok
    exact mapME_not_ok_of_mem (embedEntry embed) he hfe rl hmap
  refine ⟨h1 B hB, ?_, ?_⟩
  · intro sim complete now dsB r2 hok
    rw [compareDatasets_eq] at hok
    cases hA : generateEmbeddingsWithBatching embed BATCH_SIZE entries with
    | error e2 =>
        rw [hA, exceptBindE_err] at hok
        exact Except.noConfusion hok
    | ok ra => exact h1 BATCH_SIZE (by decide) ra hA
  · intro sim complete now dsA r3 hok
    rw [compareDatasets_eq] at hok
    cases hA : generateEmbeddingsWithBatching embed BATCH_SIZE dsA with
    | error e2 =>
        rw [hA, exceptBindE_err] at hok
        exact Except.noConfusion hok
    | ok ra =>
        rw [hA] at hok
        simp only [exceptBindE_ok] at hok
        cases hB2 : generateEmbeddingsWithBatching embed BATCH_SIZE entries with
        | error e2 =>
            rw [hB2] at hok
            simp only [exceptBindE_err] at hok
            exact Except.noConfusion hok
        | ok rb => exact h1 BATCH_SIZE (by decide) rb hB2

theorem embedding_fail_fast_witness :
    generateEmbeddingsWithBatching (fun _ => Except.error "boom") 10
        [⟨1, "Ann", "Dev", "builds", ["Go"]⟩]
      ≠ Except.ok ([⟨⟨1, "Ann", "Dev", "builds", ["Go"]⟩, [1]⟩], 0) :=
  (embedding_fail_fast (fun _ => Except.error "boom") 10 (by decide)
    [⟨1, "Ann", "Dev", "builds", ["Go"]⟩] ⟨1, "Ann", "Dev", "builds", ["Go"]⟩
    (by simp) "boom" rfl).1 ([⟨⟨1, "Ann", "Dev", "builds", ["Go"]⟩, [1]⟩], 0)

/-- C8: whenever `compareDatasets` produces a report, its
`totalComparisons` equals the length of its `results`; the results mirror
the source dataset's entry order with exactly one `ComparisonResult` per
source entry — positionally, each result's `entryA` is the original (plain,
embedding-free `DatasetEntry`) source entry — and the report carries the
generation timestamp.  (Both entries of a result are of the embedding-free
`DatasetEntry` shape by construction: `compareDatasets` rebuilds them from
the five plain fields.) -/
theorem report_assembly (embed : String → Except String (List ℚ))
    (sim : List ℚ → List ℚ → JsNum) (complete : String → CompletionOutcome)
    (now : String) (dsA dsB : List DatasetEntry) (report : ComparisonReport)
    (h : compareDatasets embed sim complete now dsA dsB = Except.ok report) :
    report.totalComparisons = report.results.length ∧
    report.results.length = dsA.length ∧
    report.comparisonDate = now ∧
    (∀ i : Nat, Option.map ComparisonResult.entryA report.results[i]? = dsA[i]?) := by
  rw [compareDatasets_eq, bindE_eq_ok] at h
  obtain ⟨resA, hA, h⟩ := h
  obtain ⟨lA, pA⟩ := resA
  dsimp only at h
  rw [bindE_eq_ok] at h
  obtain ⟨resB, hB2, h⟩ := h
  obtain ⟨lB, pB⟩ := resB
  dsimp only at h
  rw [bindE_eq_ok] at h
  obtain ⟨comps, hC, h⟩ := h
  injection h with h
  subst h
  obtain ⟨hmapA, _⟩ := genEmb_ok (by decide) hA
  have hdiff := (genDiff_eq complete (B := BATCH_SIZE) (by decide) comps).1
  have hlenR : (generateDiffSummariesWithBatching complete BATCH_SIZE comps).1.length
      = dsA.length := by
    rw [hdiff, List.length_map, mapME_ok_length _ hC, mapME_ok_length _ hmapA]
  refine ⟨rfl, hlenR, rfl, ?_⟩
  intro i
  show Option.map ComparisonResult.entryA
      (generateDiffSummariesWithBatching complete BATCH_SIZE comps).1[i]? = dsA[i]?
  cases hdA : dsA[i]? with
  | none =>
      have hge : dsA.length ≤ i := by
        by_contra hc
        rw [List.getElem?_eq_getElem (not_le.mp hc)] at hdA
        cases hdA
      have hgeC : comps.length ≤ i := by
        rw [mapME_ok_length _ hC, mapME_ok_length _ hmapA]
        exact hge
      rw [hdiff, List.getElem?_map (fun c => (diffItem complete c).1) comps i,
        List.getElem?_eq_none hgeC]
      rfl
  | some eA =>
      obtain ⟨weA, hwe, hfa⟩ := mapME_ok_getElem_some hmapA hdA
      obtain ⟨c1, hc1, hgc⟩ := mapME_ok_getElem_some hC hwe
      rw [hdiff, List.getElem?_map (fun c => (diffItem complete c).1) comps i, hc1]
      show some ((diffItem complete c1).1.entryA) = some eA
      rw [(diffItem_fields complete c1).1]
      rw [bindE_eq_ok] at hgc
      obtain ⟨mr, _, hok2⟩ := hgc
      cases hok2
      exact congrArg some (embedEntry_ok_entry hfa)

theorem report_assembly_witness :
    Option.map ComparisonResult.entryA
        ((⟨"t0", 1, [⟨⟨1, "Ann", "Dev", "builds", ["Go"]⟩,
            ⟨2, "Bob", "Dev", "builds", ["Go"]⟩, JsNum.val 1,
            some "No differences"⟩]⟩ : ComparisonReport)).results[0]?
      = [(⟨1, "Ann", "Dev", "builds", ["Go"]⟩ : DatasetEntry)][0]? :=
  (report_assembly (fun _ => Except.ok [1]) (fun _ _ => JsNum.val 1)
    (fun _ => CompletionOutcome.success (some "differs")) "t0"
    [⟨1, "Ann", "Dev", "builds", ["Go"]⟩] [⟨2, "Bob", "Dev", "builds", ["Go"]⟩]
    ⟨"t0", 1, [⟨⟨1, "Ann", "Dev", "builds", ["Go"]⟩,
      ⟨2, "Bob", "Dev", "builds", ["Go"]⟩, JsNum.val 1, some "No differences"⟩]⟩
    rfl).2.2.2 0

/-- C10: a successful remote completion call (one that does not throw) whose
response message content is absent makes `generateDiffSummary` return null —
not the error placeholder — and the corresponding `ComparisonResult` has a
null `diffSummary` although the item was neither skipped as identical (one
completion call was made) nor failed. -/
theorem diff_null_on_absent_content :
    generateDiffSummary (fun _ => CompletionOutcome.success none)
        ⟨1, "Ann", "Dev", "builds", ["Go"]⟩ ⟨2, "Bob", "Dev", "builds", ["Go"]⟩
      = (none, 1) ∧
    diffItem (fun _ => CompletionOutcome.success none)
        ⟨⟨1, "Ann", "Dev", "builds", ["Go"]⟩, ⟨2, "Bob", "Dev", "builds", ["Go"]⟩,
          JsNum.val 0⟩
      = (⟨⟨1, "Ann", "Dev", "builds", ["Go"]⟩, ⟨2, "Bob", "Dev", "builds", ["Go"]⟩,
          JsNum.val 0, none⟩, 1) := by
  constructor
  · rfl
  · rfl
